import Mathlib

/-!
# EnvSanityCheck: a shallow embedding of the repository's core logic

The repository ships two near-duplicate implementations of the same
command-line tool:

* `cli.py` (the packaged variant, entry point `envsanitycheck.cli`), and
* `envcheck.py` (an older stand-alone variant of the same program).

Both consist of a specification loader, a dotenv loader, a type validator
(`check_value_type`), a report-building loop inside the `envsanitycheck`
command, and a formatter.  This file embeds both variants: pure Python
string manipulation is translated to Lean functions over `String` /
`List Char` (ASCII model), Python dictionaries become association lists
accessed only through a lookup function, and `sys.exit` / early `return`
become explicit result values `Option Report × Nat` (report rendered, exit
code).

The built-in parsers `int(...)` and `float(...)` of CPython (which the
validators invoke inside `try/except ValueError`) are embedded as the
boolean predicates `pyIntParses` and `pyFloatParses` below, following the
documented CPython acceptance grammar for `str` arguments in base 10:
surrounding whitespace is ignored, one optional leading sign, digits with
single underscores allowed only between digits, and for `float`
additionally one optional decimal point, an optional exponent part, and
the case-insensitive special words inf / infinity / nan.
-/

/-! ## Python string primitives (ASCII model) -/

/-- The single-quote character, kept abstract as a code point. -/
def squo : Char := Char.ofNat 39

/-- The double-quote character. -/
def dquo : Char := Char.ofNat 34

/-- ASCII whitespace stripped by Python's `str.strip()` (and ignored by
`int` / `float` around their argument). -/
def pyWs (c : Char) : Bool :=
  c == ' ' || c == '\t' || c == '\n' || c == '\r' || c == Char.ofNat 11 || c == Char.ofNat 12

/-- Strip characters satisfying `p` from both ends of a character list. -/
def stripWhile (p : Char → Bool) (l : List Char) : List Char :=
  ((l.dropWhile p).reverse.dropWhile p).reverse

/-- Python `str.strip()` (no argument): remove surrounding whitespace. -/
def pyStrip (s : String) : String :=
  String.mk (stripWhile pyWs s.toList)

/-- Python `str.strip(c)` for a one-character argument: remove every
leading and trailing occurrence of `c` (no matching requirement). -/
def pyStripChar (c : Char) (s : String) : String :=
  String.mk (stripWhile (fun x => x == c) s.toList)

/-- Python `str.lower()` restricted to ASCII. -/
def pyLower (s : String) : String :=
  String.mk (s.toList.map Char.toLower)

/-- Python `'#' in s[:1]`-style test: whether the string starts with `#`
(used for comment lines). -/
def startsWithHash (s : String) : Bool :=
  match s.toList with
  | c :: _ => c == '#'
  | [] => false

/-- Python `c in s` for a single character `c`. -/
def pyContainsChar (s : String) (c : Char) : Bool :=
  s.toList.contains c

/-- Split a character list at the first occurrence of `sep` (excluded). -/
def splitFirstChar (sep : Char) : List Char → Option (List Char × List Char)
  | [] => none
  | c :: rest =>
    if c == sep then some ([], rest)
    else (splitFirstChar sep rest).map (fun p => (c :: p.1, p.2))

/-- Python `s.split(sep, 1)` for a one-character separator: `none` when the
separator does not occur (Python would return a one-element list). -/
def pySplitOnce (sep : Char) (s : String) : Option (String × String) :=
  (splitFirstChar sep s.toList).map (fun p => (String.mk p.1, String.mk p.2))

/-! ## CPython `int` and `float` parsing of strings -/

/-- Tail of a digit run: digits with single underscores allowed between
digits (an underscore must be followed by a digit). -/
def digitTail : List Char → Bool
  | [] => true
  | [c] => c.isDigit
  | c :: c2 :: rest =>
    if c == '_' then c2.isDigit && digitTail rest
    else c.isDigit && digitTail (c2 :: rest)

/-- A `digitpart` in CPython's numeric grammar: at least one digit, single
underscores allowed only between digits. -/
def isDigitPart : List Char → Bool
  | [] => false
  | c :: rest => c.isDigit && digitTail rest

/-- Drop one optional leading sign. -/
def dropSign : List Char → List Char
  | [] => []
  | c :: rest => if c == '+' || c == '-' then rest else c :: rest

/-- Whether CPython `int(s)` succeeds on string `s` (base 10). -/
def pyIntParses (s : String) : Bool :=
  isDigitPart (dropSign (stripWhile pyWs s.toList))

/-- Case-insensitive comparison of a character list to a (lowercase) word. -/
def ciEq (l : List Char) (w : List Char) : Bool :=
  l.map Char.toLower == w

/-- Mantissa of a float literal: `digitpart [. [digitpart]]` or
`. digitpart`. -/
def floatMantissa (l : List Char) : Bool :=
  match splitFirstChar '.' l with
  | some (a, b) => (isDigitPart a && (b.isEmpty || isDigitPart b)) || (a.isEmpty && isDigitPart b)
  | none => isDigitPart l

/-- Numeric (non-special) part of CPython float syntax:
`mantissa [(e | E) [sign] digitpart]`. -/
def floatNumber (l : List Char) : Bool :=
  match splitFirstChar 'e' l with
  | some (m, ex) => floatMantissa m && isDigitPart (dropSign ex)
  | none =>
    match splitFirstChar 'E' l with
    | some (m, ex) => floatMantissa m && isDigitPart (dropSign ex)
    | none => floatMantissa l

/-- Whether CPython `float(s)` succeeds on string `s`. -/
def pyFloatParses (s : String) : Bool :=
  let l := dropSign (stripWhile pyWs s.toList)
  ciEq l "inf".toList || ciEq l "infinity".toList || ciEq l "nan".toList || floatNumber l

/-! ## Python dictionaries as association lists

Python dictionaries preserve insertion order and have unique keys; an
assignment `d[k] = v` overwrites in place when `k` is present and appends
otherwise.  All code under study reads a dictionary only through `k in d`
and `d[k]`, which `dictGet` models. -/

/-- A Python dictionary of strings, as an insertion-ordered list. -/
abbrev Dict := List (String × String)

/-- Lookup: `d[k]` when `k in d`, else `none`. -/
def dictGet (d : Dict) (k : String) : Option String :=
  match d.find? (fun p => p.1 == k) with
  | some p => some p.2
  | none => none

/-- Assignment `d[k] = v`: overwrite the binding in place or append. -/
def dictSet (d : Dict) (k v : String) : Dict :=
  match d with
  | [] => [(k, v)]
  | p :: rest => if p.1 == k then (p.1, v) :: rest else p :: dictSet rest k v

/-- `\x7b**a, **b\x7d`: start from `a`, then assign every entry of `b` in
order. -/
def dictMerge (a b : Dict) : Dict :=
  b.foldl (fun d p => dictSet d p.1 p.2) a

/-! ## Shared data model -/

/-- One entry of the report's `type_errors` list
(`\x7b"key": ..., "expected": ..., "actual_value": ..., "message": ...\x7d`). -/
structure TypeError where
  key : String
  expected : String
  actual_value : String
  message : String
deriving Repr, DecidableEq

/-- The structured report (`report_data` in both variants), with the
source's field order and names. -/
structure Report where
  status : String
  required_count : Nat
  found_count : Nat
  missing : List String
  empty : List String
  type_errors : List TypeError
  all_checks_passed : Bool
deriving Repr, DecidableEq

/-- Accumulator of the validation loop of `envsanitycheck`. -/
structure CheckAcc where
  missing : List String
  empty : List String
  type_errors : List TypeError
  found : Nat
deriving Repr, DecidableEq

/-- `VALID_TYPES` keys, in declaration order. -/
def validTypes : List String := ["string", "integer", "float", "boolean"]

/-- Message `Value '<v>' contains a decimal point. Expected strict integer.`
(quotes built from `squo` to keep the source text faithful). -/
def decimalPointMsg (v : String) : String :=
  "Value " ++ squo.toString ++ v ++ squo.toString ++ " contains a decimal point. Expected strict integer."

/-- Message `Value '<v>' cannot be converted to type '<t>'.` -/
def conversionFailMsg (v t : String) : String :=
  "Value " ++ squo.toString ++ v ++ squo.toString ++ " cannot be converted to type " ++ squo.toString ++ t ++ squo.toString ++ "."

/-- Message `Value '<v>' is not a valid boolean (expected true/false/1/0).` -/
def invalidBooleanMsg (v : String) : String :=
  "Value " ++ squo.toString ++ v ++ squo.toString ++ " is not a valid boolean (expected true/false/1/0)."

/-! ## `cli.py` -/

namespace Cli

/-- `cli.py` `check_value_type`: strings always pass; integers are rejected
with a dedicated message when a `.` is present and otherwise follow
`int(value)`; floats follow `float(value)`; booleans must lower-case to one
of `true` / `false` / `1` / `0`.  An unknown `expected_type` falls through
the `if` chain and returns `(True, "")` like the source. -/
def check_value_type (_key value expected_type : String) : Bool × String :=
  if expected_type == "string" then (true, "")
  else if expected_type == "integer" then
    if pyContainsChar value '.' then (false, decimalPointMsg value)
    else if pyIntParses value then (true, "") else (false, conversionFailMsg value "integer")
  else if expected_type == "float" then
    if pyFloatParses value then (true, "") else (false, conversionFailMsg value "float")
  else if expected_type == "boolean" then
    if ["true", "false", "1", "0"].contains (pyLower value) then (true, "")
    else (false, invalidBooleanMsg value)
  else (true, "")

/-- A minimal model of the value `ruamel.yaml` hands to `load_spec_file`:
a scalar string, a non-string scalar such as the `null` produced by a bare
`NAME:` line, or a mapping. -/
inductive Yaml where
  | str : String → Yaml
  | nullv : Yaml
  | dict : List (String × Yaml) → Yaml
deriving Repr

/-- Normalization loop of `load_spec_file`: `normalized_data[str(k).strip()]
= v.lower().strip()` for string values, error for anything else. -/
def normalizeSpec (acc : Dict) : List (String × Yaml) → Except String Dict
  | [] => .ok acc
  | (k, v) :: rest =>
    match v with
    | .str s => normalizeSpec (dictSet acc (pyStrip k) (pyStrip (pyLower s))) rest
    | _ => .error ("Type for variable " ++ squo.toString ++ k ++ squo.toString ++ " must be a string.")

/-- `cli.py` `load_spec_file`.  The file-system read and the YAML parse are
external: the function takes `none` for a missing file and the parsed
document otherwise.  Every raised exception becomes `.error` (the source
echoes the message and exits with code 1). -/
def load_spec_file (src : Option Yaml) : Except String Dict :=
  match src with
  | none => .error "Specification file not found."
  | some (.dict items) =>
    match normalizeSpec [] items with
    | .error e => .error e
    | .ok d =>
      match d.find? (fun p => !(validTypes.contains p.2)) with
      | some p => .error ("Variable " ++ squo.toString ++ p.1 ++ squo.toString ++ " specifies an unknown type: " ++ squo.toString ++ p.2 ++ squo.toString ++ ".")
      | none => .ok d
  | some _ => .error "Specification file content must be a dictionary (YAML object)."

/-- One iteration of the `load_dotenv_vars` line loop of `cli.py`:
strip the line, skip comments and blanks, split once at `=`, strip the key,
strip the value and then strip all double quotes and then all single quotes
from its ends, and assign when the key is non-empty. -/
def dotenvLine (d : Dict) (line : String) : Dict :=
  let l := pyStrip line
  if l != "" && !(startsWithHash l) then
    match pySplitOnce '=' l with
    | some (k, v) =>
      let key := pyStrip k
      let value := pyStripChar squo (pyStripChar dquo (pyStrip v))
      if key ≠ "" then dictSet d key value else d
    | none => d
  else d

/-- `cli.py` `load_dotenv_vars` over the file's lines; a missing file
contributes an empty mapping. -/
def load_dotenv_vars (src : Option (List String)) : Dict :=
  match src with
  | none => []
  | some lines => lines.foldl dotenvLine []

/-- The validation loop of `envsanitycheck` in `cli.py`, parameterized by
the type checker so that theorems can state which classifications consult
it.  `found_count` is incremented only for a value that passes the check. -/
def runChecks (check : String → String → String → Bool × String) (env : Dict) :
    List (String × String) → CheckAcc
  | [] => ⟨[], [], [], 0⟩
  | (var, ty) :: rest =>
    let r := runChecks check env rest
    match dictGet env var with
    | none => { r with missing := var :: r.missing }
    | some value =>
      if value = "" then { r with empty := var :: r.empty }
      else
        let c := check var value ty
        if c.1 then { r with found := r.found + 1 }
        else { r with type_errors := ⟨var, ty, value, c.2⟩ :: r.type_errors }

/-- `report_data` of `cli.py` `envsanitycheck`. -/
def report (spec : List (String × String)) (env : Dict) : Report :=
  let a := runChecks check_value_type env spec
  let is_failing := !a.missing.isEmpty || !a.empty.isEmpty || !a.type_errors.isEmpty
  { status := if is_failing then "FAILURE" else "SUCCESS"
    required_count := spec.length
    found_count := a.found
    missing := a.missing
    empty := a.empty
    type_errors := a.type_errors
    all_checks_passed := !is_failing }

/-- The `envsanitycheck` command of `cli.py`: load the specification (exit
1 on a load error, no report), merge the dotenv mapping with the process
environment (the latter written second, hence winning), build and render
the report, and exit 1 when failing, 0 otherwise. -/
def envsanitycheck (specSrc : Option Yaml) (dotenvSrc : Option (List String))
    (osenv : Dict) : Option Report × Nat :=
  match load_spec_file specSrc with
  | .error _ => (none, 1)
  | .ok spec =>
    let all_available_vars := dictMerge (load_dotenv_vars dotenvSrc) osenv
    let r := report spec all_available_vars
    (some r, if r.all_checks_passed then 0 else 1)

end Cli

/-! ## `envcheck.py` -/

namespace Envcheck

/-- `envcheck.py` `check_value_type`: identical to the `cli.py` version
except that the integer branch has no decimal-point test — it relies on
`int(value)` alone, so every non-integer (including `1.0`) lands in the
generic `ValueError` message. -/
def check_value_type (_key value expected_type : String) : Bool × String :=
  if expected_type == "string" then (true, "")
  else if expected_type == "integer" then
    if pyIntParses value then (true, "") else (false, conversionFailMsg value "integer")
  else if expected_type == "float" then
    if pyFloatParses value then (true, "") else (false, conversionFailMsg value "float")
  else if expected_type == "boolean" then
    if ["true", "false", "1", "0"].contains (pyLower value) then (true, "")
    else (false, invalidBooleanMsg value)
  else (true, "")

/-- Line loop of `envcheck.py` `load_required_variables`: strip, skip
blanks and `#` comments, split once at `:` (key stripped, type stripped
then lower-cased) or default a bare name to `string`, and exit with an
error on a type outside `VALID_TYPES`. -/
def loadSpecLines (acc : Dict) : List String → Except String Dict
  | [] => .ok acc
  | line :: rest =>
    let l := pyStrip line
    if l != "" && !(startsWithHash l) then
      let kt : String × String :=
        match pySplitOnce ':' l with
        | some (k, t) => (pyStrip k, pyLower (pyStrip t))
        | none => (l, "string")
      if validTypes.contains kt.2 then loadSpecLines (dictSet acc kt.1 kt.2) rest
      else .error ("Invalid type " ++ squo.toString ++ kt.2 ++ squo.toString ++ " specified for variable " ++ squo.toString ++ kt.1 ++ squo.toString ++ ".")
    else loadSpecLines acc rest

/-- `envcheck.py` `load_required_variables`; `none` models the missing
file (`FileNotFoundError`, exit 1). -/
def load_required_variables (src : Option (List String)) : Except String Dict :=
  match src with
  | none => .error "Specification file not found."
  | some lines => loadSpecLines [] lines

/-- One iteration of the `load_dotenv_vars` line loop of `envcheck.py`:
like `cli.py` but without the non-empty-key guard. -/
def dotenvLine (d : Dict) (line : String) : Dict :=
  let l := pyStrip line
  if l != "" && !(startsWithHash l) then
    match pySplitOnce '=' l with
    | some (k, v) =>
      dictSet d (pyStrip k) (pyStripChar squo (pyStripChar dquo (pyStrip v)))
    | none => d
  else d

/-- `envcheck.py` `load_dotenv_vars`; a missing file yields `\x7b\x7d`. -/
def load_dotenv_vars (src : Option (List String)) : Dict :=
  match src with
  | none => []
  | some lines => lines.foldl dotenvLine []

/-- The validation loop of `envsanitycheck` in `envcheck.py`.  Unlike the
`cli.py` loop, `found_count += 1` runs before the type check, so a
type-mismatched variable is counted as found *and* recorded in
`type_errors`. -/
def runChecks (check : String → String → String → Bool × String) (env : Dict) :
    List (String × String) → CheckAcc
  | [] => ⟨[], [], [], 0⟩
  | (var, ty) :: rest =>
    let r := runChecks check env rest
    match dictGet env var with
    | none => { r with missing := var :: r.missing }
    | some value =>
      if value = "" then { r with empty := var :: r.empty }
      else
        let c := check var value ty
        if c.1 then { r with found := r.found + 1 }
        else { r with type_errors := ⟨var, ty, value, c.2⟩ :: r.type_errors, found := r.found + 1 }

/-- `report_data` of `envcheck.py` `envsanitycheck`. -/
def report (spec : List (String × String)) (env : Dict) : Report :=
  let a := runChecks check_value_type env spec
  let is_failing := !a.missing.isEmpty || !a.empty.isEmpty || !a.type_errors.isEmpty
  { status := if is_failing then "FAILURE" else "SUCCESS"
    required_count := spec.length
    found_count := a.found
    missing := a.missing
    empty := a.empty
    type_errors := a.type_errors
    all_checks_passed := !is_failing }

/-- The `envsanitycheck` command of `envcheck.py`: as in `cli.py`, except
that an empty parsed specification returns immediately — before the dotenv
load, the merge, the report and the formatter — with the command's normal
exit code 0. -/
def envsanitycheck (specSrc : Option (List String)) (dotenvSrc : Option (List String))
    (osenv : Dict) : Option Report × Nat :=
  match load_required_variables specSrc with
  | .error _ => (none, 1)
  | .ok spec =>
    if spec.isEmpty then (none, 0)
    else
      let all_available_vars := dictMerge (load_dotenv_vars dotenvSrc) osenv
      let r := report spec all_available_vars
      (some r, if r.all_checks_passed then 0 else 1)

end Envcheck

/-! ## Outcome predicates

These boolean predicates name the per-variable classification that the
validation loops of both variants perform; the characterization lemmas
below state that the loops compute exactly these. -/

/-- The variable of `p` is absent from the resolved environment. -/
def isAbsent (env : Dict) (p : String × String) : Bool :=
  (dictGet env p.1).isNone

/-- The variable of `p` is present with the empty string as value. -/
def isEmptyVal (env : Dict) (p : String × String) : Bool :=
  dictGet env p.1 == some ""

/-- The variable of `p` is present with a non-empty value (regardless of
type conformance). -/
def presentNonempty (env : Dict) (p : String × String) : Bool :=
  match dictGet env p.1 with
  | some v => v != ""
  | none => false

/-- The type-error record the loops produce for `p`, when they produce
one. -/
def typeErrorOf (check : String → String → String → Bool × String) (env : Dict)
    (p : String × String) : Option TypeError :=
  match dictGet env p.1 with
  | some v => if v != "" && !(check p.1 v p.2).1 then some ⟨p.1, p.2, v, (check p.1 v p.2).2⟩ else none
  | none => none

/-- The variable of `p` is present, non-empty and type-conformant. -/
def isValidOutcome (check : String → String → String → Bool × String) (env : Dict)
    (p : String × String) : Bool :=
  match dictGet env p.1 with
  | some v => v != "" && (check p.1 v p.2).1
  | none => false

/-! ## Dictionary lemmas -/

theorem dictGet_cons (p : String × String) (d : Dict) (k : String) :
    dictGet (p :: d) k = if p.1 == k then some p.2 else dictGet d k := by
  simp only [dictGet, List.find?]
  cases hp : p.1 == k <;> simp [hp]

theorem dictGet_dictSet_self (d : Dict) (k v : String) :
    dictGet (dictSet d k v) k = some v := by
  induction d with
  | nil => simp [dictSet, dictGet_cons]
  | cons p rest ih =>
    by_cases h : p.1 = k
    · simp [dictSet, h, dictGet_cons]
    · have hb : (p.1 == k) = false := beq_eq_false_iff_ne.mpr h
      simp [dictSet, hb, dictGet_cons, ih]

theorem dictGet_dictSet_other (d : Dict) (k v k' : String) (h : k' ≠ k) :
    dictGet (dictSet d k v) k' = dictGet d k' := by
  have hb : (k == k') = false := beq_eq_false_iff_ne.mpr (Ne.symm h)
  induction d with
  | nil => simp [dictSet, dictGet_cons, hb, dictGet]
  | cons p rest ih =>
    by_cases hp : p.1 = k
    · subst hp
      simp [dictSet, dictGet_cons, hb]
    · have hpb : (p.1 == k) = false := beq_eq_false_iff_ne.mpr hp
      simp [dictSet, hpb, dictGet_cons, ih]

theorem dictGet_eq_none_of_not_mem (d : Dict) (k : String)
    (h : k ∉ d.map Prod.fst) : dictGet d k = none := by
  induction d with
  | nil => rfl
  | cons p rest ih =>
    simp only [List.map_cons, List.mem_cons] at h
    push_neg at h
    have hb : (p.1 == k) = false := beq_eq_false_iff_ne.mpr (fun he => h.1 he.symm)
    simp [dictGet_cons, hb, ih h.2]

theorem dictMerge_nil (a : Dict) : dictMerge a [] = a := rfl

theorem dictMerge_cons (a : Dict) (p : String × String) (b : Dict) :
    dictMerge a (p :: b) = dictMerge (dictSet a p.1 p.2) b := rfl

/-- When the key is absent from `b`, `\x7b**a, **b\x7d` looks it up in `a`
(no uniqueness assumption needed). -/
theorem dictMerge_get_none (b : Dict) : ∀ (a : Dict) (k : String),
    dictGet b k = none → dictGet (dictMerge a b) k = dictGet a k := by
  induction b with
  | nil => intro a k _; rfl
  | cons p rest ih =>
    intro a k h
    rw [dictGet_cons] at h
    cases hb : p.1 == k with
    | true => rw [hb] at h; simp at h
    | false =>
      rw [hb] at h; simp only [Bool.false_eq_true, if_false] at h
      have hne : k ≠ p.1 := fun he => by simp [he] at hb
      rw [dictMerge_cons, ih _ k h, dictGet_dictSet_other _ _ _ _ hne]

/-- When `b` binds the key (and `b`, like a real dictionary, has no
duplicate keys), `\x7b**a, **b\x7d` returns `b`'s value. -/
theorem dictMerge_get_some (b : Dict) : ∀ (a : Dict) (k v : String),
    (b.map Prod.fst).Nodup → dictGet b k = some v →
    dictGet (dictMerge a b) k = some v := by
  induction b with
  | nil => intro a k v _ h; simp [dictGet] at h
  | cons p rest ih =>
    intro a k v hnd h
    simp only [List.map_cons, List.nodup_cons] at hnd
    rw [dictGet_cons] at h
    cases hb : p.1 == k with
    | true =>
      rw [hb] at h; simp only [if_true] at h
      have hk : p.1 = k := by simpa using hb
      have hrest : dictGet rest k = none := by
        apply dictGet_eq_none_of_not_mem
        rw [← hk]; exact hnd.1
      rw [dictMerge_cons, dictMerge_get_none _ _ _ hrest, ← hk,
        dictGet_dictSet_self]
      exact h
    | false =>
      rw [hb] at h; simp only [Bool.false_eq_true, if_false] at h
      rw [dictMerge_cons]
      exact ih _ k v hnd.2 h

/-! ## Characterizing the validation loops -/

/-- The `cli.py` loop computes exactly: the absent keys in declaration
order, the empty keys in declaration order, the type-error records in
declaration order, and the number of valid variables. -/
theorem cli_runChecks_eq (check : String → String → String → Bool × String)
    (env : Dict) : ∀ spec : List (String × String),
    Cli.runChecks check env spec =
      ⟨(spec.filter (isAbsent env)).map Prod.fst,
       (spec.filter (isEmptyVal env)).map Prod.fst,
       spec.filterMap (typeErrorOf check env),
       (spec.filter (isValidOutcome check env)).length⟩ := by
  intro spec
  induction spec with
  | nil => rfl
  | cons p rest ih =>
    obtain ⟨var, ty⟩ := p
    simp only [Cli.runChecks, ih]
    cases hv : dictGet env var with
    | none =>
      simp [List.filter_cons, List.filterMap_cons, isAbsent, isEmptyVal,
        isValidOutcome, typeErrorOf, hv]
    | some value =>
      by_cases hemp : value = ""
      · subst hemp
        simp [List.filter_cons, List.filterMap_cons, isAbsent, isEmptyVal,
          isValidOutcome, typeErrorOf, hv]
      · have hne : (value != "") = true := by simpa using hemp
        cases hc : (check var value ty).1 with
        | true =>
          simp [List.filter_cons, List.filterMap_cons, isAbsent, isEmptyVal,
            isValidOutcome, typeErrorOf, hv, hemp, hne, hc]
        | false =>
          simp [List.filter_cons, List.filterMap_cons, isAbsent, isEmptyVal,
            isValidOutcome, typeErrorOf, hv, hemp, hne, hc]

/-- The `envcheck.py` loop agrees with the `cli.py` loop on all three
lists; only its found-count differs — it counts every present non-empty
variable, whether or not the type check passes. -/
theorem envcheck_runChecks_eq (check : String → String → String → Bool × String)
    (env : Dict) : ∀ spec : List (String × String),
    Envcheck.runChecks check env spec =
      { Cli.runChecks check env spec with
        found := (spec.filter (presentNonempty env)).length } := by
  intro spec
  induction spec with
  | nil => rfl
  | cons p rest ih =>
    obtain ⟨var, ty⟩ := p
    simp only [Envcheck.runChecks, Cli.runChecks, ih]
    cases hv : dictGet env var with
    | none => simp [List.filter_cons, presentNonempty, hv]
    | some value =>
      by_cases hemp : value = ""
      · subst hemp
        simp [List.filter_cons, presentNonempty, hv]
      · have hne : (value != "") = true := by simpa using hemp
        cases hc : (check var value ty).1 with
        | true => simp [List.filter_cons, presentNonempty, hv, hemp, hne, hc]
        | false => simp [List.filter_cons, presentNonempty, hv, hemp, hne, hc]

/-- In the `cli.py` loop the four counters partition the declared
variables: every declared variable is classified exactly one way. -/
theorem cli_runChecks_total (check : String → String → String → Bool × String)
    (env : Dict) : ∀ spec : List (String × String),
    (Cli.runChecks check env spec).found
      + (Cli.runChecks check env spec).missing.length
      + (Cli.runChecks check env spec).empty.length
      + (Cli.runChecks check env spec).type_errors.length = spec.length := by
  intro spec
  induction spec with
  | nil => rfl
  | cons p rest ih =>
    obtain ⟨var, ty⟩ := p
    simp only [Cli.runChecks]
    split
    · simp only [List.length_cons]; omega
    · split
      · simp only [List.length_cons]; omega
      · split
        · simp only [List.length_cons]; omega
        · simp only [List.length_cons]; omega

/-! ## The specification's literal grammars

These definitions follow the specification's own words — "a base-10
integer with optional leading sign and no decimal point" and "a decimal
floating-point literal (integers also accepted)" — for comparison against
the source-derived `pyIntParses` / `pyFloatParses`. -/

/-- A non-empty run of plain decimal digits. -/
def allDigits (l : List Char) : Bool :=
  !l.isEmpty && l.all Char.isDigit

/-- A base-10 integer literal: optional leading sign, then digits only. -/
def specIntLiteral (s : String) : Bool :=
  allDigits (dropSign s.toList)

/-- Mantissa of a plain decimal float literal. -/
def specMantissa (l : List Char) : Bool :=
  match splitFirstChar '.' l with
  | some (a, b) => (allDigits a && (b.isEmpty || allDigits b)) || (a.isEmpty && allDigits b)
  | none => allDigits l

/-- Unsigned part of a plain decimal float literal, with optional
exponent. -/
def specFloatNumber (l : List Char) : Bool :=
  match splitFirstChar 'e' l with
  | some (m, ex) => specMantissa m && allDigits (dropSign ex)
  | none =>
    match splitFirstChar 'E' l with
    | some (m, ex) => specMantissa m && allDigits (dropSign ex)
    | none => specMantissa l

/-- A decimal floating-point literal (a plain integer literal also
qualifies): optional sign, digits with at most one decimal point, optional
exponent.  No special words, no underscores, no surrounding whitespace. -/
def specFloatLiteral (s : String) : Bool :=
  specFloatNumber (dropSign s.toList)

/-- The quote-stripping rule exactly as the specification states it: one
layer removed, and only when both ends carry the same quote character. -/
def specQuoteStrip (v : String) : String :=
  match v.toList with
  | [] => v
  | [_] => v
  | c :: rest =>
    if (c == dquo || c == squo) && (rest.getLast? == some c)
    then String.mk rest.dropLast else v

/-! ## Grammar lemmas -/

theorem splitFirstChar_eq_append {sep : Char} :
    ∀ {l a b : List Char}, splitFirstChar sep l = some (a, b) → l = a ++ sep :: b := by
  intro l
  induction l with
  | nil => intro a b h; simp [splitFirstChar] at h
  | cons c rest ih =>
    intro a b h
    simp only [splitFirstChar] at h
    cases hc : c == sep with
    | true =>
      rw [hc] at h
      simp only [if_true, Option.some.injEq, Prod.mk.injEq] at h
      obtain ⟨ha, hb⟩ := h
      subst ha; subst hb
      have : c = sep := by simpa using hc
      simp [this]
    | false =>
      rw [hc] at h
      simp only [Bool.false_eq_true, if_false] at h
      cases hsp : splitFirstChar sep rest with
      | none => rw [hsp] at h; simp at h
      | some pr =>
        obtain ⟨a', b'⟩ := pr
        rw [hsp] at h
        simp only [Option.map_some', Option.some.injEq, Prod.mk.injEq] at h
        obtain ⟨ha, hb⟩ := h
        subst ha; subst hb
        simp [ih hsp]

theorem mem_dropSign {l : List Char} {c : Char} (h : c ∈ l) :
    c ∈ dropSign l ∨ c = '+' ∨ c = '-' := by
  cases l with
  | nil => simp at h
  | cons c0 rest =>
    simp only [dropSign]
    cases hs : c0 == '+' || c0 == '-' with
    | true =>
      rcases List.mem_cons.mp h with rfl | hm
      · rcases Bool.or_eq_true .. |>.mp hs with h' | h'
        · right; left; simpa using h'
        · right; right; simpa using h'
      · simp [hm]
    | false => simp [h]

theorem dropWhile_eq_self_of {p : Char → Bool} :
    ∀ l : List Char, (∀ c ∈ l, p c = false) → l.dropWhile p = l := by
  intro l h
  cases l with
  | nil => rfl
  | cons c rest =>
    rw [List.dropWhile_cons_of_neg]
    simp [h c (List.mem_cons_self ..)]

theorem stripWhile_eq_self {p : Char → Bool} (l : List Char)
    (h : ∀ c ∈ l, p c = false) : stripWhile p l = l := by
  unfold stripWhile
  rw [dropWhile_eq_self_of l h,
    dropWhile_eq_self_of l.reverse (fun c hc => h c (List.mem_reverse.mp hc)),
    List.reverse_reverse]

theorem pyWs_eq_false_of_isDigit {c : Char} (h : c.isDigit = true) :
    pyWs c = false := by
  cases hw : pyWs c with
  | false => rfl
  | true =>
    exfalso
    simp only [pyWs, Bool.or_eq_true, beq_iff_eq] at hw
    rcases hw with ((((rfl | rfl) | rfl) | rfl) | rfl) | rfl <;>
      exact absurd h (by decide)

theorem digitTail_of_all : ∀ l : List Char, l.all Char.isDigit = true → digitTail l = true := by
  intro l
  induction l with
  | nil => intro _; rfl
  | cons c rest ih =>
    intro h
    simp only [List.all_cons, Bool.and_eq_true] at h
    cases rest with
    | nil => simpa [digitTail] using h.1
    | cons c2 rest2 =>
      have hc : (c == '_') = false := by
        cases hcu : c == '_' with
        | false => rfl
        | true =>
          have : c = '_' := by simpa using hcu
          rw [this] at h
          exact absurd h.1 (by decide)
      simp [digitTail, hc, h.1, ih h.2]

theorem allDigits_isDigitPart {l : List Char} (h : allDigits l = true) :
    isDigitPart l = true := by
  cases l with
  | nil => simp [allDigits] at h
  | cons c rest =>
    simp only [allDigits, List.all_cons, Bool.and_eq_true] at h
    simp [isDigitPart, h.2.1, digitTail_of_all rest h.2.2]

theorem mem_allDigits {l : List Char} {c : Char} (h : allDigits l = true)
    (hm : c ∈ l) : c.isDigit = true := by
  simp only [allDigits, Bool.and_eq_true, List.all_eq_true] at h
  exact h.2 c hm

theorem mem_specMantissa {l : List Char} {c : Char} (h : specMantissa l = true)
    (hm : c ∈ l) : c.isDigit = true ∨ c = '.' := by
  unfold specMantissa at h
  cases hsp : splitFirstChar '.' l with
  | none =>
    rw [hsp] at h
    exact Or.inl (mem_allDigits h hm)
  | some pr =>
    obtain ⟨a, b⟩ := pr
    rw [hsp] at h
    have hl := splitFirstChar_eq_append hsp
    subst hl
    simp only [Bool.or_eq_true, Bool.and_eq_true] at h
    rcases List.mem_append.mp hm with hma | hmb
    · rcases h with ⟨hda, _⟩ | ⟨hae, _⟩
      · exact Or.inl (mem_allDigits hda hma)
      · rw [List.isEmpty_iff.mp hae] at hma; simp at hma
    · rcases List.mem_cons.mp hmb with rfl | hmb'
      · exact Or.inr rfl
      · rcases h with ⟨_, hbe | hdb⟩ | ⟨_, hdb⟩
        · rw [List.isEmpty_iff.mp hbe] at hmb'; simp at hmb'
        · exact Or.inl (mem_allDigits hdb hmb')
        · exact Or.inl (mem_allDigits hdb hmb')

theorem mem_specFloatNumber {l : List Char} {c : Char} (h : specFloatNumber l = true)
    (hm : c ∈ l) :
    c.isDigit = true ∨ c = '.' ∨ c = 'e' ∨ c = 'E' ∨ c = '+' ∨ c = '-' := by
  have hexp : ∀ ex : List Char, allDigits (dropSign ex) = true → c ∈ ex →
      c.isDigit = true ∨ c = '.' ∨ c = 'e' ∨ c = 'E' ∨ c = '+' ∨ c = '-' := by
    intro ex hex hmex
    rcases mem_dropSign hmex with hd | rfl | rfl
    · exact Or.inl (mem_allDigits hex hd)
    · right; right; right; right; left; rfl
    · right; right; right; right; right; rfl
  have hmant : ∀ m : List Char, specMantissa m = true → c ∈ m →
      c.isDigit = true ∨ c = '.' ∨ c = 'e' ∨ c = 'E' ∨ c = '+' ∨ c = '-' := by
    intro m hmn hmm
    rcases mem_specMantissa hmn hmm with hd | rfl
    · exact Or.inl hd
    · right; left; rfl
  unfold specFloatNumber at h
  cases hsp : splitFirstChar 'e' l with
  | some pr =>
    obtain ⟨m, ex⟩ := pr
    rw [hsp] at h
    simp only [Bool.and_eq_true] at h
    have hl := splitFirstChar_eq_append hsp
    subst hl
    rcases List.mem_append.mp hm with hmm | hmex
    · exact hmant m h.1 hmm
    · rcases List.mem_cons.mp hmex with rfl | hmex'
      · right; right; left; rfl
      · exact hexp ex h.2 hmex'
  | none =>
    rw [hsp] at h
    cases hsp2 : splitFirstChar 'E' l with
    | some pr =>
      obtain ⟨m, ex⟩ := pr
      rw [hsp2] at h
      simp only [Bool.and_eq_true] at h
      have hl := splitFirstChar_eq_append hsp2
      subst hl
      rcases List.mem_append.mp hm with hmm | hmex
      · exact hmant m h.1 hmm
      · rcases List.mem_cons.mp hmex with rfl | hmex'
        · right; right; right; left; rfl
        · exact hexp ex h.2 hmex'
    | none =>
      rw [hsp2] at h
      exact hmant l h hm

theorem specMantissa_imp {l : List Char} (h : specMantissa l = true) :
    floatMantissa l = true := by
  unfold specMantissa at h
  unfold floatMantissa
  cases hsp : splitFirstChar '.' l with
  | none =>
    rw [hsp] at h
    exact allDigits_isDigitPart h
  | some pr =>
    obtain ⟨a, b⟩ := pr
    rw [hsp] at h
    simp only [Bool.or_eq_true, Bool.and_eq_true] at h ⊢
    rcases h with ⟨hda, hbe | hdb⟩ | ⟨hae, hdb⟩
    · exact Or.inl ⟨allDigits_isDigitPart hda, Or.inl hbe⟩
    · exact Or.inl ⟨allDigits_isDigitPart hda, Or.inr (allDigits_isDigitPart hdb)⟩
    · exact Or.inr ⟨hae, allDigits_isDigitPart hdb⟩

theorem specFloatNumber_imp {l : List Char} (h : specFloatNumber l = true) :
    floatNumber l = true := by
  unfold specFloatNumber at h
  unfold floatNumber
  cases hsp : splitFirstChar 'e' l with
  | some pr =>
    obtain ⟨m, ex⟩ := pr
    rw [hsp] at h
    simp only [Bool.and_eq_true] at h ⊢
    exact ⟨specMantissa_imp h.1, allDigits_isDigitPart h.2⟩
  | none =>
    rw [hsp] at h
    simp only [] at h ⊢
    cases hsp2 : splitFirstChar 'E' l with
    | some pr =>
      obtain ⟨m, ex⟩ := pr
      rw [hsp2] at h
      simp only [Bool.and_eq_true] at h ⊢
      exact ⟨specMantissa_imp h.1, allDigits_isDigitPart h.2⟩
    | none =>
      rw [hsp2] at h
      exact specMantissa_imp h

theorem spec_int_chars {v : String} (h : specIntLiteral v = true) :
    ∀ c ∈ v.toList, pyWs c = false := by
  unfold specIntLiteral at h
  intro c hm
  rcases mem_dropSign hm with hd | rfl | rfl
  · exact pyWs_eq_false_of_isDigit (mem_allDigits h hd)
  · decide
  · decide

/-- Every plain integer literal (the acceptance set the specification
describes) is accepted by CPython `int`. -/
theorem specIntLiteral_pyIntParses {v : String} (h : specIntLiteral v = true) :
    pyIntParses v = true := by
  unfold pyIntParses
  rw [stripWhile_eq_self v.toList (spec_int_chars h)]
  unfold specIntLiteral at h
  exact allDigits_isDigitPart h

/-- A plain integer literal contains no decimal point. -/
theorem specIntLiteral_no_dot {v : String} (h : specIntLiteral v = true) :
    pyContainsChar v '.' = false := by
  unfold specIntLiteral at h
  cases hc : pyContainsChar v '.' with
  | false => rfl
  | true =>
    exfalso
    have hm : '.' ∈ v.toList := by simpa [pyContainsChar] using hc
    rcases mem_dropSign hm with hd | he | he
    · exact absurd (mem_allDigits h hd) (by decide)
    · exact absurd he (by decide)
    · exact absurd he (by decide)

theorem spec_float_chars {v : String} (h : specFloatLiteral v = true) :
    ∀ c ∈ v.toList, pyWs c = false := by
  unfold specFloatLiteral at h
  intro c hm
  rcases mem_dropSign hm with hd | rfl | rfl
  · rcases mem_specFloatNumber h hd with hdig | rfl | rfl | rfl | rfl | rfl
    · exact pyWs_eq_false_of_isDigit hdig
    all_goals decide
  · decide
  · decide

/-- Every plain decimal float literal (the acceptance set the
specification describes) is accepted by CPython `float`. -/
theorem specFloatLiteral_pyFloatParses {v : String} (h : specFloatLiteral v = true) :
    pyFloatParses v = true := by
  have hs := stripWhile_eq_self v.toList (spec_float_chars h)
  unfold specFloatLiteral at h
  unfold pyFloatParses
  rw [hs]
  simp only [Bool.or_eq_true]
  exact Or.inr (specFloatNumber_imp h)

/-! ## Failure-status helpers -/

/-- The failing condition of `cli.py` holds exactly when some declared
variable is absent, empty, or type-mismatched. -/
theorem cli_failing_iff (check : String → String → String → Bool × String)
    (env : Dict) (spec : List (String × String)) :
    (!(Cli.runChecks check env spec).missing.isEmpty
      || !(Cli.runChecks check env spec).empty.isEmpty
      || !(Cli.runChecks check env spec).type_errors.isEmpty) = true
    ↔ ∃ p ∈ spec, isAbsent env p = true ∨ isEmptyVal env p = true ∨
        typeErrorOf check env p ≠ none := by
  rw [cli_runChecks_eq]
  simp only [Bool.or_eq_true, Bool.not_eq_true', List.isEmpty_eq_false_iff_exists_mem,
    List.mem_map, List.mem_filter, List.mem_filterMap, ne_eq]
  constructor
  · rintro ((⟨x, ⟨p, ⟨hp, hq⟩, _⟩⟩ | ⟨x, ⟨p, ⟨hp, hq⟩, _⟩⟩) | ⟨te, p, hp, hq⟩)
    · exact ⟨p, hp, Or.inl hq⟩
    · exact ⟨p, hp, Or.inr (Or.inl hq)⟩
    · exact ⟨p, hp, Or.inr (Or.inr (by simp [hq]))⟩
  · rintro ⟨p, hp, hq | hq | hq⟩
    · exact Or.inl (Or.inl ⟨p.1, ⟨p, ⟨hp, hq⟩, rfl⟩⟩)
    · exact Or.inl (Or.inr ⟨p.1, ⟨p, ⟨hp, hq⟩, rfl⟩⟩)
    · right
      cases hte : typeErrorOf check env p with
      | none => exact absurd hte hq
      | some te => exact ⟨te, p, hp, hte⟩

/-- Same failing condition for the `envcheck.py` loop (the lists agree
with `cli.py`). -/
theorem envcheck_failing_iff (check : String → String → String → Bool × String)
    (env : Dict) (spec : List (String × String)) :
    (!(Envcheck.runChecks check env spec).missing.isEmpty
      || !(Envcheck.runChecks check env spec).empty.isEmpty
      || !(Envcheck.runChecks check env spec).type_errors.isEmpty) = true
    ↔ ∃ p ∈ spec, isAbsent env p = true ∨ isEmptyVal env p = true ∨
        typeErrorOf check env p ≠ none := by
  rw [envcheck_runChecks_eq]
  exact cli_failing_iff check env spec

/-! ## Claims -/

/-- C1.  The specification's count invariant
`found_count + len(missing) + len(empty) + len(type_errors) == required_count`
holds unconditionally for the `cli.py` report builder, but `envcheck.py`
violates it: its loop increments `found_count` before the type check runs,
so a type-mismatched variable is counted as found and recorded in
`type_errors`.  For the specification `\x7bPORT: integer\x7d` and resolved
environment `\x7bPORT: "abc"\x7d` the left-hand side evaluates to 2 while
`required_count` is 1. -/
theorem claim1_found_count_invariant :
    (∀ (spec : List (String × String)) (env : Dict),
      (Cli.report spec env).found_count + (Cli.report spec env).missing.length
        + (Cli.report spec env).empty.length + (Cli.report spec env).type_errors.length
        = (Cli.report spec env).required_count)
    ∧ (Envcheck.report [("PORT", "integer")] [("PORT", "abc")]).found_count
        + (Envcheck.report [("PORT", "integer")] [("PORT", "abc")]).missing.length
        + (Envcheck.report [("PORT", "integer")] [("PORT", "abc")]).empty.length
        + (Envcheck.report [("PORT", "integer")] [("PORT", "abc")]).type_errors.length = 2
    ∧ (Envcheck.report [("PORT", "integer")] [("PORT", "abc")]).required_count = 1 := by
  refine ⟨?_, by decide, by decide⟩
  intro spec env
  have h := cli_runChecks_total Cli.check_value_type env spec
  simp only [Cli.report]
  omega

/-- C3.  In the resolved environment `\x7b**dotenv_vars, **os.environ\x7d`,
a key bound by the process environment resolves to the process-environment
value (even when the dotenv mapping also binds it), and a key the process
environment does not bind resolves to its dotenv value (or stays absent).
The process environment, like every real dictionary, has no duplicate
keys. -/
theorem claim3_merge_precedence (dotenv osenv : Dict) (k : String)
    (hnd : (osenv.map Prod.fst).Nodup) :
    (∀ v, dictGet osenv k = some v → dictGet (dictMerge dotenv osenv) k = some v)
    ∧ (dictGet osenv k = none → dictGet (dictMerge dotenv osenv) k = dictGet dotenv k) :=
  ⟨fun _ hv => dictMerge_get_some osenv dotenv k _ hnd hv,
   fun h => dictMerge_get_none osenv dotenv k h⟩

/-- Witness for C3 at a concrete overlap: dotenv binds `A` to `dot`, the
process environment binds `A` to `env`, and the merge resolves `A` to
`env`; a dotenv-only key `B` survives with its dotenv value. -/
theorem claim3_merge_precedence_witness :
    dictGet (dictMerge [("A", "dot"), ("B", "b")] [("A", "env")]) "A" = some "env"
    ∧ dictGet (dictMerge [("A", "dot"), ("B", "b")] [("A", "env")]) "B" = some "b" :=
  ⟨(claim3_merge_precedence [("A", "dot"), ("B", "b")] [("A", "env")] "A"
      (by decide)).1 "env" (by decide),
   by
    have h := (claim3_merge_precedence [("A", "dot"), ("B", "b")] [("A", "env")] "B"
      (by decide)).2 (by decide)
    simpa using h⟩

/-- C10.  When the parsed specification is empty, the `envcheck.py`
command returns immediately: no dotenv file is read, no environment is
merged (the result does not depend on either source), no report is built
or formatted, and the exit code is the command's normal 0. -/
theorem claim10_empty_spec (specSrc dotenvSrc : Option (List String)) (osenv : Dict)
    (h : Envcheck.load_required_variables specSrc = .ok []) :
    Envcheck.envsanitycheck specSrc dotenvSrc osenv = (none, 0) := by
  unfold Envcheck.envsanitycheck
  rw [h]
  rfl

/-- Witness for C10: a specification source with no lines parses to the
empty mapping and the command exits 0 with no report, whatever the dotenv
file and environment contain. -/
theorem claim10_empty_spec_witness :
    Envcheck.envsanitycheck (some []) (some ["A=1"]) [("B", "x")] = (none, 0) :=
  claim10_empty_spec (some []) (some ["A=1"]) [("B", "x")] rfl

/-- C2 counterexample.  `envcheck.py`'s validator rejects `1.0` as an
integer with the *generic* conversion-failure message — exactly the
message it produces for a plain parse failure such as `abc` — so its
rejection reason does not distinguish decimal-point presence, contrary to
the claim.  `cli.py`'s validator does use a dedicated decimal-point
message. -/
theorem claim2_counterexample :
    Envcheck.check_value_type "PORT" "1.0" "integer"
      = (false, conversionFailMsg "1.0" "integer")
    ∧ Envcheck.check_value_type "PORT" "abc" "integer"
      = (false, conversionFailMsg "abc" "integer")
    ∧ Cli.check_value_type "PORT" "1.0" "integer" = (false, decimalPointMsg "1.0")
    ∧ decimalPointMsg "1.0" ≠ conversionFailMsg "1.0" "integer" := by
  refine ⟨by decide, by decide, by decide, by decide⟩

/-- C2 (amended).  For a non-empty value checked against `integer`:
`cli.py` accepts iff the value has no decimal point and CPython `int`
parses it, rejecting any dot-carrying value with the dedicated
decimal-point reason and other failures with the generic conversion
reason; `envcheck.py` accepts exactly the same values but reports every
failure, dot or not, with the generic conversion reason.  Every plain
signed digit literal — the acceptance set the specification describes —
is accepted by both. -/
theorem claim2_integer_rule (k v : String) (_hv : v ≠ "") :
    ((Cli.check_value_type k v "integer").1 = (!(pyContainsChar v '.') && pyIntParses v))
    ∧ (pyContainsChar v '.' = true →
        Cli.check_value_type k v "integer" = (false, decimalPointMsg v))
    ∧ (pyContainsChar v '.' = false → pyIntParses v = false →
        Cli.check_value_type k v "integer" = (false, conversionFailMsg v "integer"))
    ∧ ((Envcheck.check_value_type k v "integer").1 = pyIntParses v)
    ∧ (pyIntParses v = false →
        Envcheck.check_value_type k v "integer" = (false, conversionFailMsg v "integer"))
    ∧ (specIntLiteral v = true →
        Cli.check_value_type k v "integer" = (true, "")
        ∧ Envcheck.check_value_type k v "integer" = (true, "")) := by
  have hIS : (("integer" : String) == "string") = false := by decide
  have hII : (("integer" : String) == "integer") = true := by decide
  refine ⟨?_, ?_, ?_, ?_, ?_, ?_⟩
  · simp only [Cli.check_value_type, hIS, hII, Bool.false_eq_true, if_false, if_true]
    cases hc : pyContainsChar v '.' <;> cases hp : pyIntParses v <;> simp [hc, hp]
  · intro hc
    simp [Cli.check_value_type, hIS, hII, hc]
  · intro hc hp
    simp [Cli.check_value_type, hIS, hII, hc, hp]
  · simp only [Envcheck.check_value_type, hIS, hII, Bool.false_eq_true, if_false, if_true]
    cases hp : pyIntParses v <;> simp [hp]
  · intro hp
    simp [Envcheck.check_value_type, hIS, hII, hp]
  · intro hs
    constructor
    · simp [Cli.check_value_type, hIS, hII, specIntLiteral_no_dot hs,
        specIntLiteral_pyIntParses hs]
    · simp [Envcheck.check_value_type, hIS, hII, specIntLiteral_pyIntParses hs]

/-- Witness for C2 (amended): the literal `+41` is a plain signed digit
run and both validators accept it with an empty reason. -/
theorem claim2_integer_rule_witness :
    Cli.check_value_type "PORT" "+41" "integer" = (true, "")
    ∧ Envcheck.check_value_type "PORT" "+41" "integer" = (true, "") :=
  (claim2_integer_rule "PORT" "+41" (by decide)).2.2.2.2.2 (by decide)

/-- C6 counterexample.  The boolean validator lower-cases but never trims:
the value `" true"` (leading space) trims and lower-cases to `true`, a
member of the accepted set, yet both validators reject it.  The claim's
"case-insensitive trimmed value" condition therefore does not match the
code. -/
theorem claim6_counterexample :
    Cli.check_value_type "FLAG" " true" "boolean" = (false, invalidBooleanMsg " true")
    ∧ Envcheck.check_value_type "FLAG" " true" "boolean" = (false, invalidBooleanMsg " true")
    ∧ pyLower (pyStrip " true") = "true"
    ∧ (["true", "false", "1", "0"].contains (pyLower (pyStrip " true"))) = true := by
  refine ⟨by decide, by decide, by decide, by decide⟩

/-- C6 (amended).  For a non-empty value checked against `boolean`, both
validators accept iff the lower-cased — *untrimmed* — value is one of
`true`, `false`, `1`, `0`, and reject anything else with the message that
names the accepted set (`expected true/false/1/0`). -/
theorem claim6_boolean_rule (k v : String) (_hv : v ≠ "") :
    Cli.check_value_type k v "boolean"
      = (if ["true", "false", "1", "0"].contains (pyLower v)
         then (true, "") else (false, invalidBooleanMsg v))
    ∧ Envcheck.check_value_type k v "boolean"
      = (if ["true", "false", "1", "0"].contains (pyLower v)
         then (true, "") else (false, invalidBooleanMsg v)) := by
  have h1 : (("boolean" : String) == "string") = false := by decide
  have h2 : (("boolean" : String) == "integer") = false := by decide
  have h3 : (("boolean" : String) == "float") = false := by decide
  have h4 : (("boolean" : String) == "boolean") = true := by decide
  constructor
  · simp only [Cli.check_value_type, h1, h2, h3, h4, Bool.false_eq_true, if_false, if_true]
  · simp only [Envcheck.check_value_type, h1, h2, h3, h4, Bool.false_eq_true, if_false, if_true]

/-- Witness for C6 (amended): `TRUE` lower-cases into the accepted set and
both validators accept it. -/
theorem claim6_boolean_rule_witness :
    Cli.check_value_type "FLAG" "TRUE" "boolean"
      = (if ["true", "false", "1", "0"].contains (pyLower "TRUE")
         then (true, "") else (false, invalidBooleanMsg "TRUE"))
    ∧ Envcheck.check_value_type "FLAG" "TRUE" "boolean"
      = (if ["true", "false", "1", "0"].contains (pyLower "TRUE")
         then (true, "") else (false, invalidBooleanMsg "TRUE")) :=
  claim6_boolean_rule "FLAG" "TRUE" (by decide)

/-- Both rejection messages end in a period, so they are never the empty
string, whatever value they embed. -/
theorem conversionFailMsg_ne_empty (v t : String) : conversionFailMsg v t ≠ "" := by
  intro h
  have hd := congrArg String.data h
  simp [conversionFailMsg, String.data_append] at hd

/-- C8 counterexample.  Both validators accept `inf` as a `float` (CPython
`float` parses the special words inf / infinity / nan), but `inf` is not a
decimal floating-point literal, nor an integer literal, so the claim's
"accepts iff decimal floating-point literal" fails at `inf`. -/
theorem claim8_counterexample :
    Cli.check_value_type "X" "inf" "float" = (true, "")
    ∧ Envcheck.check_value_type "X" "inf" "float" = (true, "")
    ∧ specFloatLiteral "inf" = false
    ∧ specIntLiteral "inf" = false := by
  refine ⟨by decide, by decide, by decide, by decide⟩

/-- C8 (amended).  For a non-empty value checked against `float`, both
validators accept iff CPython `float` parses the value; that set contains
every plain decimal floating-point literal (integer literals included) but
also the case-insensitive special words inf / infinity / nan with optional
sign, underscore digit grouping, and surrounding whitespace.  Every
rejection carries the non-empty generic conversion reason, and every
acceptance an empty reason. -/
theorem claim8_float_rule (k v : String) (_hv : v ≠ "") :
    ((Cli.check_value_type k v "float").1 = pyFloatParses v)
    ∧ ((Envcheck.check_value_type k v "float").1 = pyFloatParses v)
    ∧ (pyFloatParses v = false →
        Cli.check_value_type k v "float" = (false, conversionFailMsg v "float")
        ∧ Envcheck.check_value_type k v "float" = (false, conversionFailMsg v "float")
        ∧ (Cli.check_value_type k v "float").2 ≠ "")
    ∧ (pyFloatParses v = true →
        Cli.check_value_type k v "float" = (true, "")
        ∧ Envcheck.check_value_type k v "float" = (true, ""))
    ∧ (specFloatLiteral v = true →
        Cli.check_value_type k v "float" = (true, "")
        ∧ Envcheck.check_value_type k v "float" = (true, "")) := by
  have h1 : (("float" : String) == "string") = false := by decide
  have h2 : (("float" : String) == "integer") = false := by decide
  have h3 : (("float" : String) == "float") = true := by decide
  refine ⟨?_, ?_, ?_, ?_, ?_⟩
  · simp only [Cli.check_value_type, h1, h2, h3, Bool.false_eq_true, if_false, if_true]
    cases hp : pyFloatParses v <;> simp [hp]
  · simp only [Envcheck.check_value_type, h1, h2, h3, Bool.false_eq_true, if_false, if_true]
    cases hp : pyFloatParses v <;> simp [hp]
  · intro hp
    refine ⟨?_, ?_, ?_⟩
    · simp [Cli.check_value_type, h1, h2, h3, hp]
    · simp [Envcheck.check_value_type, h1, h2, h3, hp]
    · simp [Cli.check_value_type, h1, h2, h3, hp, conversionFailMsg_ne_empty]
  · intro hp
    exact ⟨by simp [Cli.check_value_type, h1, h2, h3, hp],
           by simp [Envcheck.check_value_type, h1, h2, h3, hp]⟩
  · intro hs
    have hp := specFloatLiteral_pyFloatParses hs
    exact ⟨by simp [Cli.check_value_type, h1, h2, h3, hp],
           by simp [Envcheck.check_value_type, h1, h2, h3, hp]⟩

/-- Witness for C8 (amended): the decimal literal `-3.25e2` is accepted by
both validators with an empty reason. -/
theorem claim8_float_rule_witness :
    Cli.check_value_type "X" "-3.25e2" "float" = (true, "")
    ∧ Envcheck.check_value_type "X" "-3.25e2" "float" = (true, "") :=
  (claim8_float_rule "X" "-3.25e2" (by decide)).2.2.2.2 (by decide)

/-- C7 counterexample.  For the dotenv line `K="abc` — a value whose two
ends do not carry the same quote character — the specification's rule
keeps the value `"abc` unchanged, but both loaders store `abc`: Python's
`.strip('"').strip("'")` removes *all* leading and trailing quote
characters with no matching requirement. -/
theorem claim7_counterexample :
    Cli.load_dotenv_vars (some ["K=\"abc"]) = [("K", "abc")]
    ∧ Envcheck.load_dotenv_vars (some ["K=\"abc"]) = [("K", "abc")]
    ∧ specQuoteStrip (pyStrip "\"abc") = "\"abc"
    ∧ ("abc" : String) ≠ "\"abc" := by
  refine ⟨by decide, by decide, by decide, by decide⟩

/-- A line whose stripped form contains no `=` leaves the dotenv mapping
unchanged in both variants. -/
theorem dotenvLine_noeq (d : Dict) (line : String)
    (h : pySplitOnce '=' (pyStrip line) = none) :
    Cli.dotenvLine d line = d ∧ Envcheck.dotenvLine d line = d := by
  constructor
  · simp only [Cli.dotenvLine, h]
    split <;> rfl
  · simp only [Envcheck.dotenvLine, h]
    split <;> rfl

/-- A dotenv file none of whose lines contains `=` loads as the empty
mapping in both variants. -/
theorem dotenv_fold_noeq : ∀ lines : List String,
    (∀ l ∈ lines, pySplitOnce '=' (pyStrip l) = none) → ∀ d : Dict,
    lines.foldl Cli.dotenvLine d = d ∧ lines.foldl Envcheck.dotenvLine d = d := by
  intro lines
  induction lines with
  | nil => intro _ d; exact ⟨rfl, rfl⟩
  | cons x xs ih =>
    intro h d
    have hx := dotenvLine_noeq d x (h x (List.mem_cons_self ..))
    have ihx := ih (fun l hl => h l (List.mem_cons_of_mem _ hl))
    constructor
    · rw [List.foldl_cons, hx.1]; exact (ihx d).1
    · rw [List.foldl_cons, hx.2]; exact (ihx d).2

/-- C7 (amended).  Per line: the KEY is trimmed; the VALUE is trimmed and
then has *all* leading and trailing double quotes removed, then *all*
leading and trailing single quotes removed, with no same-character
matching requirement and no one-layer limit (`cli.py` additionally drops
entries whose trimmed key is empty); lines without `=` contribute
nothing. -/
theorem claim7_dotenv_rule :
    (∀ (d : Dict) (line k v : String),
       pySplitOnce '=' (pyStrip line) = some (k, v) →
       startsWithHash (pyStrip line) = false →
       Envcheck.dotenvLine d line
         = dictSet d (pyStrip k) (pyStripChar squo (pyStripChar dquo (pyStrip v)))
       ∧ (pyStrip k ≠ "" →
           Cli.dotenvLine d line
             = dictSet d (pyStrip k) (pyStripChar squo (pyStripChar dquo (pyStrip v)))))
    ∧ (∀ (d : Dict) (line : String), pySplitOnce '=' (pyStrip line) = none →
        Cli.dotenvLine d line = d ∧ Envcheck.dotenvLine d line = d)
    ∧ (∀ lines : List String, (∀ l ∈ lines, pySplitOnce '=' (pyStrip l) = none) →
        Cli.load_dotenv_vars (some lines) = [] ∧ Envcheck.load_dotenv_vars (some lines) = []) := by
  refine ⟨?_, dotenvLine_noeq, ?_⟩
  · intro d line k v hsp hh
    have hne : pyStrip line ≠ "" := by
      intro h0
      rw [h0] at hsp
      simp [pySplitOnce, splitFirstChar] at hsp
    constructor
    · simp [Envcheck.dotenvLine, hsp, hh, hne]
    · intro hk
      simp [Cli.dotenvLine, hsp, hh, hne, hk]
  · intro lines h
    exact dotenv_fold_noeq lines h []

/-- Witness for C7 (amended): the line `A = '1'` stores key `A` with the
single quotes stripped from the value `1`; the line `NOEQ` contributes
nothing. -/
theorem claim7_dotenv_rule_witness :
    Envcheck.dotenvLine [] " A = '1' "
      = dictSet [] (pyStrip "A ") (pyStripChar squo (pyStripChar dquo (pyStrip " '1'")))
    ∧ Cli.dotenvLine [] "NOEQ" = [] := by
  constructor
  · exact (claim7_dotenv_rule.1 [] " A = '1' " "A " " '1'" (by decide) (by decide)).1
  · exact (claim7_dotenv_rule.2.1 [] "NOEQ" (by decide)).1

/-- C9 counterexample.  The two specification parsers disagree on a bare
variable name: `envcheck.py`'s line parser defaults it to `string`, but
`cli.py`'s YAML parser receives a null value for a bare `NAME:` entry and
aborts the load with a fatal error instead of succeeding — so "the
Specification Parser succeeds and assigns `string`" does not hold of
`cli.py`. -/
theorem claim9_counterexample :
    Cli.load_spec_file (some (Cli.Yaml.dict [("NAME", Cli.Yaml.nullv)]))
      = .error ("Type for variable " ++ squo.toString ++ "NAME" ++ squo.toString
          ++ " must be a string.")
    ∧ Envcheck.load_required_variables (some ["NAME"]) = .ok [("NAME", "string")] :=
  ⟨rfl, rfl⟩

/-- C9 (amended).  A bare declaration line (non-blank, no comment marker,
no `:`) makes `envcheck.py`'s parser record the variable with expected
type `string`; `cli.py`'s YAML parser instead fails the load for any
variable declared without a string-typed value. -/
theorem claim9_bare_name :
    (∀ line : String, pyStrip line ≠ "" → startsWithHash (pyStrip line) = false →
       pySplitOnce ':' (pyStrip line) = none →
       Envcheck.load_required_variables (some [line]) = .ok [(pyStrip line, "string")])
    ∧ (∀ k : String, ∃ e, Cli.load_spec_file (some (Cli.Yaml.dict [(k, Cli.Yaml.nullv)]))
        = .error e) := by
  constructor
  · intro line hne hh hsp
    simp only [Envcheck.load_required_variables, Envcheck.loadSpecLines, hsp, hh, hne]
    simp [validTypes, dictSet, Envcheck.loadSpecLines]
    exact hne
  · intro k
    exact ⟨_, rfl⟩

/-- Witness for C9 (amended): the bare line `HOST` loads as
`HOST: string`. -/
theorem claim9_bare_name_witness :
    Envcheck.load_required_variables (some ["HOST"]) = .ok [(pyStrip "HOST", "string")] :=
  claim9_bare_name.1 "HOST" (by decide) (by decide) (by decide)

/-- C4.  Classification is exclusive and ordered, in both variants and for
*every* type checker (so neither the membership of `missing` / `empty` nor
their order depends on the type validator, and an absent or empty variable
never reaches it): `missing` is exactly the absent declared names in
declaration order, `empty` exactly the present-but-empty names in
declaration order, the `envcheck.py` lists coincide with the `cli.py`
lists, an absent declared variable appears exactly once in `missing` and
never in `empty` or `type_errors`, and a present-but-empty declared
variable appears in `empty` and never in `missing` or `type_errors`. -/
theorem claim4_classification (check : String → String → String → Bool × String)
    (env : Dict) (spec : List (String × String)) (name ty : String)
    (hnd : (spec.map Prod.fst).Nodup) (hmem : (name, ty) ∈ spec) :
    ((Cli.runChecks check env spec).missing = (spec.filter (isAbsent env)).map Prod.fst)
    ∧ ((Cli.runChecks check env spec).empty = (spec.filter (isEmptyVal env)).map Prod.fst)
    ∧ ((Envcheck.runChecks check env spec).missing = (Cli.runChecks check env spec).missing
       ∧ (Envcheck.runChecks check env spec).empty = (Cli.runChecks check env spec).empty
       ∧ (Envcheck.runChecks check env spec).type_errors
           = (Cli.runChecks check env spec).type_errors)
    ∧ (dictGet env name = none →
        (Cli.runChecks check env spec).missing.count name = 1
        ∧ name ∉ (Cli.runChecks check env spec).empty
        ∧ ∀ te ∈ (Cli.runChecks check env spec).type_errors, te.key ≠ name)
    ∧ (dictGet env name = some "" →
        name ∈ (Cli.runChecks check env spec).empty
        ∧ name ∉ (Cli.runChecks check env spec).missing
        ∧ ∀ te ∈ (Cli.runChecks check env spec).type_errors, te.key ≠ name) := by
  have hrc := cli_runChecks_eq check env spec
  have hkey_of : ∀ te p, typeErrorOf check env p = some te →
      te.key = p.1 ∧ ∃ v, dictGet env p.1 = some v ∧ v ≠ "" := by
    intro te p hpe
    unfold typeErrorOf at hpe
    cases hv : dictGet env p.1 with
    | none => rw [hv] at hpe; simp at hpe
    | some v =>
      rw [hv] at hpe
      have hpe' : (if (v != "" && !(check p.1 v p.2).1) = true
          then some (⟨p.1, p.2, v, (check p.1 v p.2).2⟩ : TypeError) else none)
          = some te := hpe
      cases hcond : (v != "" && !(check p.1 v p.2).1) with
      | false => rw [hcond] at hpe'; simp at hpe'
      | true =>
        rw [hcond] at hpe'
        simp only [if_true, Option.some.injEq] at hpe'
        subst hpe'
        refine ⟨rfl, v, rfl, ?_⟩
        have := (Bool.and_eq_true ..).mp hcond
        simpa using this.1
  refine ⟨?_, ?_, ?_, ?_, ?_⟩
  · rw [hrc]
  · rw [hrc]
  · rw [envcheck_runChecks_eq]
    exact ⟨rfl, rfl, rfl⟩
  · intro habs
    have habs' : isAbsent env (name, ty) = true := by simp [isAbsent, habs]
    refine ⟨?_, ?_, ?_⟩
    · rw [hrc]
      apply List.count_eq_one_of_mem
      · exact List.Nodup.sublist (List.Sublist.map Prod.fst (List.filter_sublist spec)) hnd
      · exact List.mem_map.mpr ⟨(name, ty), List.mem_filter.mpr ⟨hmem, habs'⟩, rfl⟩
    · rw [hrc]
      intro hm
      obtain ⟨p, hpf, hpn⟩ := List.mem_map.mp hm
      obtain ⟨_, hpe⟩ := List.mem_filter.mp hpf
      rw [isEmptyVal, hpn, habs] at hpe
      simp at hpe
    · rw [hrc]
      intro te hte hkey
      obtain ⟨p, _, hpe⟩ := List.mem_filterMap.mp hte
      obtain ⟨hk, v, hv, _⟩ := hkey_of te p hpe
      rw [← hk, hkey, habs] at hv
      exact Option.noConfusion hv
  · intro hempty
    have hempty' : isEmptyVal env (name, ty) = true := by simp [isEmptyVal, hempty]
    refine ⟨?_, ?_, ?_⟩
    · rw [hrc]
      exact List.mem_map.mpr ⟨(name, ty), List.mem_filter.mpr ⟨hmem, hempty'⟩, rfl⟩
    · rw [hrc]
      intro hm
      obtain ⟨p, hpf, hpn⟩ := List.mem_map.mp hm
      obtain ⟨_, hpe⟩ := List.mem_filter.mp hpf
      rw [isAbsent, hpn, hempty] at hpe
      simp at hpe
    · rw [hrc]
      intro te hte hkey
      obtain ⟨p, _, hpe⟩ := List.mem_filterMap.mp hte
      obtain ⟨hk, v, hv, hvne⟩ := hkey_of te p hpe
      rw [← hk, hkey, hempty] at hv
      exact hvne (Option.some.inj hv).symm

/-- Witness for C4: with specification `A: string, B: integer` and an
environment where only `B` is present (empty), the absent `A` is counted
once in `missing` and is not in `empty`, and the empty `B` is in `empty`
but not in `missing`. -/
theorem claim4_classification_witness :
    (Cli.runChecks Cli.check_value_type [("B", "")]
        [("A", "string"), ("B", "integer")]).missing.count "A" = 1
    ∧ "A" ∉ (Cli.runChecks Cli.check_value_type [("B", "")]
        [("A", "string"), ("B", "integer")]).empty := by
  have h := claim4_classification Cli.check_value_type [("B", "")]
    [("A", "string"), ("B", "integer")] "A" "string" (by decide) (by decide)
  have h4 := h.2.2.2.1 (by decide)
  exact ⟨h4.1, h4.2.1⟩

/-- Status facts for the `cli.py` report: `FAILURE` exactly when some
declared variable is absent, empty or mismatched; the status is always one
of the two strings; `all_checks_passed` mirrors `SUCCESS`. -/
theorem cli_report_props (spec : List (String × String)) (env : Dict) :
    ((Cli.report spec env).status = "FAILURE"
       ↔ ∃ p ∈ spec, isAbsent env p = true ∨ isEmptyVal env p = true ∨
           typeErrorOf Cli.check_value_type env p ≠ none)
    ∧ ((Cli.report spec env).status = "FAILURE" ∨ (Cli.report spec env).status = "SUCCESS")
    ∧ ((Cli.report spec env).all_checks_passed = true ↔ (Cli.report spec env).status = "SUCCESS") := by
  have hiff := cli_failing_iff Cli.check_value_type env spec
  simp only [Cli.report]
  generalize hb : (!(Cli.runChecks Cli.check_value_type env spec).missing.isEmpty
      || !(Cli.runChecks Cli.check_value_type env spec).empty.isEmpty
      || !(Cli.runChecks Cli.check_value_type env spec).type_errors.isEmpty) = b at hiff
  cases b with
  | true =>
    refine ⟨iff_of_true rfl (hiff.mp rfl), Or.inl rfl, iff_of_false (by simp) (by decide)⟩
  | false =>
    refine ⟨iff_of_false (by decide) ?_, Or.inr rfl, iff_of_true (by simp) rfl⟩
    intro hex
    exact Bool.noConfusion (hiff.mpr hex)

/-- Status facts for the `envcheck.py` report. -/
theorem envcheck_report_props (spec : List (String × String)) (env : Dict) :
    ((Envcheck.report spec env).status = "FAILURE"
       ↔ ∃ p ∈ spec, isAbsent env p = true ∨ isEmptyVal env p = true ∨
           typeErrorOf Envcheck.check_value_type env p ≠ none)
    ∧ ((Envcheck.report spec env).status = "FAILURE" ∨ (Envcheck.report spec env).status = "SUCCESS")
    ∧ ((Envcheck.report spec env).all_checks_passed = true ↔ (Envcheck.report spec env).status = "SUCCESS") := by
  have hiff := envcheck_failing_iff Envcheck.check_value_type env spec
  simp only [Envcheck.report]
  generalize hb : (!(Envcheck.runChecks Envcheck.check_value_type env spec).missing.isEmpty
      || !(Envcheck.runChecks Envcheck.check_value_type env spec).empty.isEmpty
      || !(Envcheck.runChecks Envcheck.check_value_type env spec).type_errors.isEmpty) = b at hiff
  cases b with
  | true =>
    refine ⟨iff_of_true rfl (hiff.mp rfl), Or.inl rfl, iff_of_false (by simp) (by decide)⟩
  | false =>
    refine ⟨iff_of_false (by decide) ?_, Or.inr rfl, iff_of_true (by simp) rfl⟩
    intro hex
    exact Bool.noConfusion (hiff.mpr hex)

/-- The exit code `cli.py` computes from `all_checks_passed` equals the
one the claim states from the status string. -/
theorem cli_exit_eq (spec : List (String × String)) (env : Dict) :
    (if (Cli.report spec env).all_checks_passed then (0 : Nat) else 1)
      = (if (Cli.report spec env).status = "FAILURE" then 1 else 0) := by
  obtain ⟨_, hdich, hacp⟩ := cli_report_props spec env
  by_cases hs : (Cli.report spec env).status = "FAILURE"
  · rw [if_pos hs, if_neg]
    intro h
    have hss := hs ▸ hacp.mp h
    exact absurd hss (by decide)
  · rw [if_neg hs, if_pos (hacp.mpr (hdich.resolve_left hs))]

/-- Likewise for `envcheck.py`. -/
theorem envcheck_exit_eq (spec : List (String × String)) (env : Dict) :
    (if (Envcheck.report spec env).all_checks_passed then (0 : Nat) else 1)
      = (if (Envcheck.report spec env).status = "FAILURE" then 1 else 0) := by
  obtain ⟨_, hdich, hacp⟩ := envcheck_report_props spec env
  by_cases hs : (Envcheck.report spec env).status = "FAILURE"
  · rw [if_pos hs, if_neg]
    intro h
    have hss := hs ▸ hacp.mp h
    exact absurd hss (by decide)
  · rw [if_neg hs, if_pos (hacp.mpr (hdich.resolve_left hs))]

/-- C5.  In both variants: the report's status is `FAILURE` iff some
declared variable is classified missing, empty, or type-mismatched, and
`SUCCESS` otherwise (the status is always one of the two);
`all_checks_passed` holds iff the status is `SUCCESS`; when the
specification loads, the command renders exactly one report and exits 1 on
`FAILURE` and 0 on `SUCCESS`; a fatal specification-load error exits 1
with no report. -/
theorem claim5_status_and_exit :
    (∀ (spec : List (String × String)) (env : Dict),
       ((Cli.report spec env).status = "FAILURE"
          ↔ ∃ p ∈ spec, isAbsent env p = true ∨ isEmptyVal env p = true ∨
              typeErrorOf Cli.check_value_type env p ≠ none)
       ∧ ((Cli.report spec env).status = "FAILURE" ∨ (Cli.report spec env).status = "SUCCESS")
       ∧ ((Cli.report spec env).all_checks_passed = true
            ↔ (Cli.report spec env).status = "SUCCESS"))
    ∧ (∀ (spec : List (String × String)) (env : Dict),
       ((Envcheck.report spec env).status = "FAILURE"
          ↔ ∃ p ∈ spec, isAbsent env p = true ∨ isEmptyVal env p = true ∨
              typeErrorOf Envcheck.check_value_type env p ≠ none)
       ∧ ((Envcheck.report spec env).status = "FAILURE"
            ∨ (Envcheck.report spec env).status = "SUCCESS")
       ∧ ((Envcheck.report spec env).all_checks_passed = true
            ↔ (Envcheck.report spec env).status = "SUCCESS"))
    ∧ (∀ (specSrc : Option Cli.Yaml) (dotenvSrc : Option (List String)) (osenv : Dict)
         (spec : List (String × String)), Cli.load_spec_file specSrc = .ok spec →
       Cli.envsanitycheck specSrc dotenvSrc osenv
         = (some (Cli.report spec (dictMerge (Cli.load_dotenv_vars dotenvSrc) osenv)),
            if (Cli.report spec (dictMerge (Cli.load_dotenv_vars dotenvSrc) osenv)).status
                = "FAILURE" then 1 else 0))
    ∧ (∀ (specSrc : Option Cli.Yaml) (dotenvSrc : Option (List String)) (osenv : Dict)
         (e : String), Cli.load_spec_file specSrc = .error e →
       Cli.envsanitycheck specSrc dotenvSrc osenv = (none, 1))
    ∧ (∀ (specSrc dotenvSrc : Option (List String)) (osenv : Dict)
         (spec : List (String × String)),
       Envcheck.load_required_variables specSrc = .ok spec → spec ≠ [] →
       Envcheck.envsanitycheck specSrc dotenvSrc osenv
         = (some (Envcheck.report spec (dictMerge (Envcheck.load_dotenv_vars dotenvSrc) osenv)),
            if (Envcheck.report spec
                  (dictMerge (Envcheck.load_dotenv_vars dotenvSrc) osenv)).status
                = "FAILURE" then 1 else 0))
    ∧ (∀ (specSrc dotenvSrc : Option (List String)) (osenv : Dict) (e : String),
       Envcheck.load_required_variables specSrc = .error e →
       Envcheck.envsanitycheck specSrc dotenvSrc osenv = (none, 1)) := by
  refine ⟨cli_report_props, envcheck_report_props, ?_, ?_, ?_, ?_⟩
  · intro specSrc dotenvSrc osenv spec h
    unfold Cli.envsanitycheck
    rw [h]
    rw [← cli_exit_eq]
  · intro specSrc dotenvSrc osenv e h
    unfold Cli.envsanitycheck
    rw [h]
  · intro specSrc dotenvSrc osenv spec h hne
    cases spec with
    | nil => exact absurd rfl hne
    | cons p rest =>
      unfold Envcheck.envsanitycheck
      rw [h]
      rw [← envcheck_exit_eq]
      exact rfl
  · intro specSrc dotenvSrc osenv e h
    unfold Envcheck.envsanitycheck
    rw [h]

/-- Witness for C5: a one-variable specification that loads successfully
produces exactly the report of the merged environment with the claimed
exit code. -/
theorem claim5_status_and_exit_witness :
    Cli.envsanitycheck (some (Cli.Yaml.dict [("A", Cli.Yaml.str "string")])) none [("A", "x")]
      = (some (Cli.report [("A", "string")] (dictMerge (Cli.load_dotenv_vars none) [("A", "x")])),
         if (Cli.report [("A", "string")]
               (dictMerge (Cli.load_dotenv_vars none) [("A", "x")])).status = "FAILURE"
         then 1 else 0) :=
  claim5_status_and_exit.2.2.1 (some (Cli.Yaml.dict [("A", Cli.Yaml.str "string")]))
    none [("A", "x")] [("A", "string")] rfl
